import Mathlib

/-!
Verification development for the spectrometer calibration code in
src/Datos y código - Práctica 1/espectroscopia_optica_funcs.py.

The Python source is shallowly embedded below.  Real-valued quantities
(pixel intensities, wavelengths in nanometres) are modelled exactly over
the rationals.  Images are modelled as rectangular grids of grayscale
brightness values (the cv2 file loading and BGR-to-gray conversion are
external collaborators; the grid they produce is the input here).
Python-level runtime errors (ZeroDivisionError on float division,
ValueError from np.argmax on an empty array or from unpacking a
too-short array, the explicit ValueError raised for a bad plot flag)
are modelled with Option / Except.
-/

set_option maxRecDepth 5000

/-- Shallow embedding of the slope computed on source lines 94:
m = (y1 - y0)/(x1 - x0). -/
def lin_m (x0 x1 y0 y1 : ℚ) : ℚ := (y1 - y0) / (x1 - x0)

/-- Shallow embedding of the intercept computed on source line 95:
b = y0 - m*x0. -/
def lin_b (x0 x1 y0 y1 : ℚ) : ℚ := y0 - lin_m x0 x1 y0 y1 * x0

/-- Source lines 92-96 (get_linear_transformation): fits the affine map
x maps-to m*x + b through the two anchor points.  The slope is computed
eagerly at construction time; with Python floats, x1 - x0 == 0 raises
ZeroDivisionError there, modelled as none. -/
def get_linear_transformation (x0 x1 y0 y1 : ℚ) : Option (ℚ → ℚ) :=
  if x1 - x0 = 0 then none
  else some (fun x => lin_m x0 x1 y0 y1 * x + lin_b x0 x1 y0 y1)

/-- Source lines 99-102 (get_column_intensity): np.sum(grayscale, axis=0)
divided by grayscale.shape[0], i.e. the per-column mean brightness.  The
image is a list of rows (all of width equal to the first row's width for
a rectangular numpy array); entry j is the sum of column j over all rows
divided by the number of rows. -/
def get_column_intensity (img : List (List ℚ)) : List ℚ :=
  (List.range (img.headD []).length).map
    (fun j => ((img.map (fun row => row.getD j 0)).sum) / (img.length : ℚ))

/-!
Model of scipy.signal.find_peaks(x, prominence=10, distance=20), the
external peak detector called on source lines 115-117.  It follows the
scipy implementation (_local_maxima_1d, _select_by_peak_distance,
_peak_prominences in scipy/signal/_peak_finding_utils.pyx): local maxima
with plateau midpoints, then removal of peaks closer than the minimal
distance to a higher-priority peak (highest intensity first), then the
prominence filter.  Loops over an index bounded above are given an
explicit fuel argument that counts the remaining iterations, so every
definition is structurally recursive and executable by reduction.
-/

/-- Inner while loop of _local_maxima_1d: starting at index i with
fuel = i_max - i, counts how many consecutive samples equal the peak
candidate value v (the loop runs while i < i_max and x[i] == v). -/
def plateauScan (x : List ℚ) (v : ℚ) : ℕ → ℕ → ℕ
  | 0, _ => 0
  | fuel+1, i => if x.getD i 0 = v then plateauScan x v fuel (i+1) + 1 else 0

/-- Main loop of _local_maxima_1d: scans indices i with 1 <= i < iMax
(iMax = length - 1, so the first and last sample are never peaks).  When
x[i-1] < x[i] it scans the plateau ahead; if the first sample after the
plateau is strictly smaller, the plateau midpoint is a peak and the scan
resumes after the plateau.  fuel bounds the number of iterations and is
at least iMax - i at every call, so the fuel never runs out before the
index check i < iMax fails. -/
def localMaximaGo (x : List ℚ) (iMax : ℕ) : ℕ → ℕ → List ℕ
  | 0, _ => []
  | fuel+1, i =>
    if i < iMax then
      if x.getD (i-1) 0 < x.getD i 0 then
        let iAhead := i + 1 + plateauScan x (x.getD i 0) (iMax - (i+1)) (i+1)
        if x.getD iAhead 0 < x.getD i 0 then
          (i + (iAhead - 1)) / 2 :: localMaximaGo x iMax fuel (iAhead + 1)
        else
          localMaximaGo x iMax fuel (i + 1)
      else
        localMaximaGo x iMax fuel (i + 1)
    else []

/-- Model of scipy _local_maxima_1d: ascending indices of the interior
local maxima of the signal. -/
def local_maxima_1d (x : List ℚ) : List ℕ :=
  localMaximaGo x (x.length - 1) x.length 1

/-- Stable insertion into an index list sorted by ascending priority
value; together with argsortAsc this models np.argsort of the priority
array (order among equal priorities is not specified by np.argsort's
default sort; the stable order is used here). -/
def insertAsc (vals : List ℚ) (j : ℕ) : List ℕ → List ℕ
  | [] => [j]
  | k :: rest =>
    if vals.getD j 0 < vals.getD k 0 then j :: k :: rest else k :: insertAsc vals j rest

/-- Indices 0..n-1 sorted by ascending priority value (np.argsort). -/
def argsortAsc (vals : List ℚ) : List ℕ :=
  (List.range vals.length).foldl (fun acc j => insertAsc vals j acc) []

/-- Left while loop of _select_by_peak_distance for the current kept
peak j: walking left from k = j-1, clears the keep flag of every peak
strictly closer than dist and stops at the first peak far enough away
(equivalent to clearing all closer left peaks, since peaks ascend). -/
def markLeft (peaks : List ℕ) (dist : ℤ) (pj : ℕ) : ℕ → (ℕ → Bool) → (ℕ → Bool)
  | 0, keep =>
    if (pj : ℤ) - (peaks.getD 0 0 : ℤ) < dist then
      (fun t => if t = 0 then false else keep t)
    else keep
  | k+1, keep =>
    if (pj : ℤ) - (peaks.getD (k+1) 0 : ℤ) < dist then
      markLeft peaks dist pj k (fun t => if t = k+1 then false else keep t)
    else keep

/-- Right while loop of _select_by_peak_distance, with fuel = n - k for
the loop condition k < n. -/
def markRight (peaks : List ℕ) (dist : ℤ) (pj : ℕ) : ℕ → ℕ → (ℕ → Bool) → (ℕ → Bool)
  | 0, _, keep => keep
  | fuel+1, k, keep =>
    if (peaks.getD k 0 : ℤ) - (pj : ℤ) < dist then
      markRight peaks dist pj fuel (k+1) (fun t => if t = k then false else keep t)
    else keep

/-- Outer loop of _select_by_peak_distance: processes peak positions in
decreasing priority order; a peak whose keep flag is still set clears
the flags of all neighbours within dist on both sides. -/
def selectGo (peaks : List ℕ) (dist : ℤ) : List ℕ → (ℕ → Bool) → (ℕ → Bool)
  | [], keep => keep
  | j :: rest, keep =>
    if keep j then
      selectGo peaks dist rest
        (markRight peaks dist (peaks.getD j 0) (peaks.length - (j+1)) (j+1)
          (if j = 0 then keep else markLeft peaks dist (peaks.getD j 0) (j-1) keep))
    else selectGo peaks dist rest keep

/-- Model of scipy _select_by_peak_distance: the boolean keep mask over
positions in the peak list. -/
def select_by_peak_distance (peaks : List ℕ) (priority : List ℚ) (dist : ℤ) : ℕ → Bool :=
  selectGo peaks dist (argsortAsc priority).reverse (fun _ => true)

/-- Boolean-mask indexing peaks[keep] of numpy. -/
def maskFilter (peaks : List ℕ) (keep : ℕ → Bool) : List ℕ :=
  ((peaks.zip ((List.range peaks.length).map keep)).filter (fun p => p.2)).map (fun p => p.1)

/-- Left base search of _peak_prominences: walking left from the peak
while the samples stay at or below the peak value v, returns the minimum
sample seen (wlen is not supplied in the source, so the walk is bounded
only by the signal start). -/
def promLeftMin (x : List ℚ) (v : ℚ) : ℕ → ℚ → ℚ
  | 0, acc => acc
  | i+1, acc => if x.getD (i+1) 0 ≤ v then promLeftMin x v i (min acc (x.getD i 0)) else acc

/-- Right base search of _peak_prominences, with fuel = iMax - i for the
loop condition i < iMax. -/
def promRightMin (x : List ℚ) (v : ℚ) : ℕ → ℕ → ℚ → ℚ
  | 0, _, acc => acc
  | fuel+1, i, acc =>
    if x.getD i 0 ≤ v then promRightMin x v fuel (i+1) (min acc (x.getD (i+1) 0)) else acc

/-- Model of scipy _peak_prominences for a single peak position p:
x[p] minus the larger of the two base minima. -/
def peak_prominence (x : List ℚ) (p : ℕ) : ℚ :=
  x.getD p 0 - max (promLeftMin x (x.getD p 0) p (x.getD p 0))
                   (promRightMin x (x.getD p 0) (x.length - 1 - p) p (x.getD p 0))

/-- Model of scipy.signal.find_peaks(x, prominence, distance) returning
the array of peak indices: local maxima, then the distance-based
selection with the peak heights as priorities, then the prominence
threshold filter (this is the order scipy applies the conditions in). -/
def find_peaks (x : List ℚ) (prominence : ℚ) (distance : ℤ) : List ℕ :=
  (maskFilter (local_maxima_1d x)
      (select_by_peak_distance (local_maxima_1d x)
        ((local_maxima_1d x).map (fun p => x.getD p 0)) distance)).filter
    (fun p => prominence ≤ peak_prominence x p)

/-- Helper for argmax. -/
def argmaxAux : List ℚ → ℕ → ℕ → ℚ → ℕ
  | [], _, best, _ => best
  | v :: rest, i, best, bv =>
    if bv < v then argmaxAux rest (i+1) i v else argmaxAux rest (i+1) best bv

/-- Model of np.argmax: index of the first occurrence of the maximum
value (np.argmax raises on an empty array; callers guard the length, so
the value returned for [] here is irrelevant). -/
def argmax : List ℚ → ℕ
  | [] => 0
  | v :: rest => argmaxAux rest 1 0 v

/-- Source lines 119-127 inside get_wavelength_from_He: selection of the
two anchor pixels and their bound wavelengths.  With fewer than 2 peaks
the source raises (np.argmax on an empty array for 0 peaks, unpacking
peaks[0][:2] into two names for 1 peak), modelled as none.  Otherwise,
if the most intense peak is the first detected one, the first two peaks
are bound to (588.87, 669.07); otherwise the peak before the most
intense one and the most intense one are bound to (502.60, 588.87).
Both pixels are shifted by the caller-supplied offset before fitting. -/
def select_anchors (peaks : List ℕ) (peak_vals : List ℚ) (offset : ℤ) :
    Option ((ℤ × ℤ) × (ℚ × ℚ)) :=
  if peaks.length < 2 then none
  else
    let order_max_max := argmax peak_vals
    if order_max_max = 0 then
      some (((peaks.getD 0 0 : ℤ) + offset, (peaks.getD 1 0 : ℤ) + offset),
            (58887/100, 66907/100))
    else
      some (((peaks.getD (order_max_max - 1) 0 : ℤ) + offset,
             (peaks.getD order_max_max 0 : ℤ) + offset),
            (2513/5, 58887/100))

/-- Source lines 114-127: the pixel-to-wavelength transform assembled
from a calibration profile: find_peaks with prominence 10 and distance
20, anchor selection, then the two-point linear fit. -/
def He_transform (intensity : List ℚ) (offset : ℤ) : Option (ℚ → ℚ) :=
  match select_anchors (find_peaks intensity 10 20)
      ((find_peaks intensity 10 20).map (fun p => intensity.getD p 0)) offset with
  | none => none
  | some ((x0, x1), (y0, y1)) => get_linear_transformation (x0 : ℚ) (x1 : ℚ) y0 y1

/-- Source lines 105-128 (get_wavelength_from_He): the transform applied
to np.arange(intensity.size), i.e. to every pixel column index of the
calibration image's own intensity profile. -/
def get_wavelength_from_He (He_img : List (List ℚ)) (offset : ℤ) : Option (List ℚ) :=
  (He_transform (get_column_intensity He_img) offset).map
    (fun f => (List.range (get_column_intensity He_img).length).map (fun i => f (i : ℚ)))

/-- Python value of the plot argument of get_spectrum, typed
Union[str, bool] in the source. -/
inductive PlotArg
  | bool (b : Bool)
  | str (s : String)
deriving DecidableEq

/-- Failure modes of get_spectrum: the uncontrolled numpy error raised
during calibration when fewer than 2 peaks are found (source lines
119-121), and the explicit ValueError for an unrecognized plot flag
(source lines 164-166). -/
inductive SpecError
  | insufficient_peaks
  | invalid_plot
deriving DecidableEq

/-- Membership of the plot flag in the recognized set
accepted by get_spectrum: False, True, above and over. -/
def plotRecognized : PlotArg → Bool
  | PlotArg.bool _ => true
  | PlotArg.str s => s = "above" || s = "over"

/-- Source lines 131-166 (get_spectrum): wavelengths are computed from
the He image first (line 139), then the target profile, then the plot
dispatch (if plot is False / elif plot == above or plot is True /
elif plot == over / else raise ValueError).  The figure objects built in
the plotting branches belong to the external rendering collaborator; the
returned spectrum data is the (wavelengths, intensity) pair in every
successful branch. -/
def get_spectrum (file He_file : List (List ℚ)) (plot : PlotArg) (spectrum_offset : ℤ) :
    Except SpecError (List ℚ × List ℚ) :=
  match get_wavelength_from_He He_file spectrum_offset with
  | none => Except.error SpecError.insufficient_peaks
  | some wavelengths =>
    if plot = PlotArg.bool false then Except.ok (wavelengths, get_column_intensity file)
    else if plot = PlotArg.str "above" ∨ plot = PlotArg.bool true then
      Except.ok (wavelengths, get_column_intensity file)
    else if plot = PlotArg.str "over" then Except.ok (wavelengths, get_column_intensity file)
    else Except.error SpecError.invalid_plot

/-- Pixel values of the synthetic one-row calibration image of the
end-to-end test in the specification: zero everywhere except value 50 at
pixel 100 and value 80 at pixel 300. -/
def synthFn : ℕ → ℚ := fun i => if i = 100 then 50 else if i = 300 then 80 else 0

/-- The synthetic profile as a list over pixels 0..301 (wide enough for
pixel 300 to be an interior sample). -/
def synthProfile : List ℚ := (List.range 302).map synthFn

/-- The synthetic single-row grayscale image. -/
def syntheticHeImage : List (List ℚ) := [synthProfile]

/-- Pixel values of a small one-row calibration image used as a concrete
witness input: isolated peaks at pixel 1 (value 50) and pixel 21
(value 80), 20 pixels apart. -/
def heFn : ℕ → ℚ := fun i => if i = 1 then 50 else if i = 21 then 80 else 0

/-- The witness calibration profile over pixels 0..22. -/
def heRow23 : List ℚ := (List.range 23).map heFn

/-- The witness single-row calibration image of width 23. -/
def heImg23 : List (List ℚ) := [heRow23]

/-- Wavelength list the pipeline produces on heImg23: the most intense
peak (pixel 21) is not the first, so pixels 1 and 21 are bound to 502.60
and 588.87, giving slope 8627/2000 and intercept 996573/2000. -/
def wsHe : List ℚ := (List.range 23).map (fun i : ℕ => 8627/2000 * (i:ℚ) + 996573/2000)

/-! Helper lemmas. -/

/-- The running best index of argmaxAux stays below the index bound. -/
theorem argmaxAux_lt (rest : List ℚ) : ∀ (i best : ℕ) (bv : ℚ), best < i →
    argmaxAux rest i best bv < i + rest.length := by
  induction rest with
  | nil => intro i best bv h; simpa [argmaxAux] using h
  | cons v t ih =>
    intro i best bv h
    rw [List.length_cons, argmaxAux]
    split_ifs
    · have := ih (i+1) i v (Nat.lt_succ_self i); omega
    · have := ih (i+1) best bv (Nat.lt_succ_of_lt h); omega

/-- On a nonempty list, argmax returns a valid index. -/
theorem argmax_lt (l : List ℚ) (h : l ≠ []) : argmax l < l.length := by
  cases l with
  | nil => exact absurd rfl h
  | cons v rest =>
    rw [argmax, List.length_cons]
    have := argmaxAux_lt rest 1 0 v Nat.one_pos
    omega

/-- getD is strictly monotone on a strictly sorted list of naturals. -/
theorem pairwise_getD_lt (l : List ℕ) (h : l.Pairwise (· < ·)) :
    ∀ a b : ℕ, a < b → b < l.length → l.getD a 0 < l.getD b 0 := by
  intro a b hab hb
  have ha : a < l.length := lt_trans hab hb
  rw [List.getD_eq_get?, List.getD_eq_get?, List.get?_eq_get ha, List.get?_eq_get hb]
  simp only [Option.getD_some]
  exact List.pairwise_iff_get.mp h ⟨a, ha⟩ ⟨b, hb⟩ hab

/-- Entry j of the map of a function over List.range n. -/
theorem getD_range_map (f : ℕ → ℚ) (n j : ℕ) (h : j < n) :
    ((List.range n).map f).getD j 0 = f j := by
  rw [List.getD_eq_get?, List.get?_map, List.get?_range h, Option.map_some', Option.getD_some]

/-- Sum of a mapped list as a sum over positions. -/
theorem list_map_sum_eq_finset_sum (l : List (List ℚ)) (g : List ℚ → ℚ) :
    (l.map g).sum = ∑ i ∈ Finset.range l.length, g (l.getD i []) := by
  induction l with
  | nil => simp
  | cons r t ih =>
    rw [List.map_cons, List.sum_cons, List.length_cons, Finset.sum_range_succ']
    simp only [List.getD_cons_succ, List.getD_cons_zero]
    rw [ih]
    exact add_comm _ _

/-! Claims about the linear calibration fitter. -/

/-- C4: for anchors sharing the same pixel position, constructing the
calibration transform fails with the division-by-zero error instead of
returning a transform. -/
theorem C4_degenerate_anchor_error (x0 x1 y0 y1 : ℚ) (h : x0 = x1) :
    get_linear_transformation x0 x1 y0 y1 = none := by
  rw [get_linear_transformation, if_pos (by rw [h, sub_self])]

theorem C4_degenerate_anchor_error_witness :
    (3:ℚ) = 3 ∧ get_linear_transformation 3 3 1 2 = none :=
  ⟨rfl, C4_degenerate_anchor_error 3 3 1 2 rfl⟩

/-- C7: for distinct anchor pixels the fitted transform maps each anchor
pixel back to its anchor wavelength, exactly over the rationals. -/
theorem C7_round_trip (x0 x1 y0 y1 : ℚ) (h : x0 ≠ x1) :
    ∃ f, get_linear_transformation x0 x1 y0 y1 = some f ∧ f x0 = y0 ∧ f x1 = y1 := by
  have hne : x1 - x0 ≠ 0 := sub_ne_zero.mpr (Ne.symm h)
  refine ⟨fun x => lin_m x0 x1 y0 y1 * x + lin_b x0 x1 y0 y1, ?_, ?_, ?_⟩
  · rw [get_linear_transformation, if_neg hne]
  · rw [lin_b]; ring
  · rw [lin_b, lin_m]; field_simp; ring

theorem C7_round_trip_witness :
    (0:ℚ) ≠ 1 ∧ ∃ f, get_linear_transformation 0 1 5 7 = some f ∧ f 0 = 5 ∧ f 1 = 7 :=
  ⟨by norm_num, C7_round_trip 0 1 5 7 (by norm_num)⟩

/-- C8: shifting both anchor pixels by a constant d leaves the fitted
slope unchanged and shifts the intercept by exactly -m*d. -/
theorem C8_offset_shift (x0 x1 y0 y1 d : ℚ) (h : x0 ≠ x1) :
    lin_m (x0 + d) (x1 + d) y0 y1 = lin_m x0 x1 y0 y1 ∧
    lin_b (x0 + d) (x1 + d) y0 y1 = lin_b x0 x1 y0 y1 - lin_m x0 x1 y0 y1 * d := by
  have he : x1 + d - (x0 + d) = x1 - x0 := by ring
  constructor
  · rw [lin_m, lin_m, he]
  · rw [lin_b, lin_b, lin_m, lin_m, he]; ring

theorem C8_offset_shift_witness :
    (2:ℚ) ≠ 5 ∧
    (lin_m (2 + 7) (5 + 7) 10 13 = lin_m 2 5 10 13 ∧
      lin_b (2 + 7) (5 + 7) 10 13 = lin_b 2 5 10 13 - lin_m 2 5 10 13 * 7) :=
  ⟨by norm_num, C8_offset_shift 2 5 10 13 7 (by norm_num)⟩

/-! Claims about the column intensity extractor. -/

/-- C9: for a rectangular image with at least one row, the profile has
exactly one entry per column, and entry j is the mean over all rows of
the brightness in column j. -/
theorem C9_column_mean (img : List (List ℚ)) (W : ℕ) (hH : 0 < img.length)
    (hW : ∀ row ∈ img, row.length = W) :
    (get_column_intensity img).length = W ∧
    ∀ j, j < W → (get_column_intensity img).getD j 0 =
      (∑ i ∈ Finset.range img.length, (img.getD i []).getD j 0) / (img.length : ℚ) := by
  obtain ⟨r, t, rfl⟩ : ∃ r t, img = r :: t := by
    cases img with
    | nil => simp at hH
    | cons r t => exact ⟨r, t, rfl⟩
  have hr : r.length = W := hW r (List.mem_cons_self r t)
  constructor
  · rw [get_column_intensity]
    simpa using hr
  · intro j hj
    rw [get_column_intensity]
    have hj' : j < ((r :: t).headD []).length := by simpa [hr] using hj
    rw [getD_range_map _ _ _ hj', list_map_sum_eq_finset_sum]

theorem C9_column_mean_witness :
    0 < ([[(1:ℚ), 2], [3, 4]] : List (List ℚ)).length ∧
    ((get_column_intensity [[(1:ℚ), 2], [3, 4]]).length = 2 ∧
      ∀ j, j < 2 → (get_column_intensity [[(1:ℚ), 2], [3, 4]]).getD j 0 =
        (∑ i ∈ Finset.range ([[(1:ℚ), 2], [3, 4]] : List (List ℚ)).length,
          (([[(1:ℚ), 2], [3, 4]] : List (List ℚ)).getD i []).getD j 0) /
          (([[(1:ℚ), 2], [3, 4]] : List (List ℚ)).length : ℚ)) :=
  ⟨by norm_num, C9_column_mean [[1, 2], [3, 4]] 2 (by norm_num) (by decide)⟩

/-! Claims about the anchor selection branches. -/

/-- C2: with at least two detected peaks (ascending pixel order), if the
most intense peak is at list index 0 the first two peaks are bound, in
ascending-pixel order, to wavelengths 588.87 and 669.07; if it is at
index k > 0, peaks k-1 and k are bound, in ascending-pixel order, to
502.60 and 588.87. -/
theorem C2_branch_selection (peaks : List ℕ) (vals : List ℚ) (offset : ℤ)
    (h2 : 2 ≤ peaks.length) (hlen : vals.length = peaks.length)
    (hsort : peaks.Pairwise (· < ·)) :
    (argmax vals = 0 →
      select_anchors peaks vals offset =
        some (((peaks.getD 0 0 : ℤ) + offset, (peaks.getD 1 0 : ℤ) + offset),
              (58887/100, 66907/100)) ∧
      (peaks.getD 0 0 : ℤ) + offset < (peaks.getD 1 0 : ℤ) + offset) ∧
    (∀ k, argmax vals = k → 0 < k →
      select_anchors peaks vals offset =
        some (((peaks.getD (k-1) 0 : ℤ) + offset, (peaks.getD k 0 : ℤ) + offset),
              (2513/5, 58887/100)) ∧
      (peaks.getD (k-1) 0 : ℤ) + offset < (peaks.getD k 0 : ℤ) + offset) := by
  have hnl : ¬ peaks.length < 2 := by omega
  constructor
  · intro h0
    refine ⟨?_, ?_⟩
    · rw [select_anchors, if_neg hnl]
      simp [h0]
    · have := pairwise_getD_lt peaks hsort 0 1 Nat.zero_lt_one (by omega)
      omega
  · intro k hk hkpos
    have hkl : k < peaks.length := by
      have hne : vals ≠ [] := by
        intro hv
        rw [hv] at hlen
        simp at hlen
        omega
      have := argmax_lt vals hne
      omega
    refine ⟨?_, ?_⟩
    · rw [select_anchors, if_neg hnl]
      simp only [hk, if_neg (Nat.pos_iff_ne_zero.mp hkpos)]
    · have := pairwise_getD_lt peaks hsort (k-1) k (by omega) hkl
      omega

theorem C2_branch_selection_witness :
    2 ≤ ([10, 40] : List ℕ).length ∧
    (select_anchors [10, 40] [7, 3] 0 =
        some ((((10:ℕ) : ℤ) + 0, ((40:ℕ) : ℤ) + 0), (58887/100, 66907/100)) ∧
      ((10:ℕ) : ℤ) + 0 < ((40:ℕ) : ℤ) + 0) := by
  refine ⟨by norm_num, ?_⟩
  have h := (C2_branch_selection [10, 40] [7, 3] 0 (by norm_num) (by norm_num)
    (by decide)).1 (by decide)
  simpa using h

/-! Claim about insufficient peaks. -/

/-- C5: a calibration profile with fewer than two detected peaks makes
the calibration step fail instead of producing wavelengths, while the
empty peak sequence itself is a valid result of the peak detector (here
on a flat three-sample profile). -/
theorem C5_insufficient_peaks (He_img : List (List ℚ)) (offset : ℤ)
    (h : (find_peaks (get_column_intensity He_img) 10 20).length < 2) :
    get_wavelength_from_He He_img offset = none ∧
    find_peaks [0, 0, 0] 10 20 = [] := by
  have hsel : select_anchors (find_peaks (get_column_intensity He_img) 10 20)
      ((find_peaks (get_column_intensity He_img) 10 20).map
        (fun p => (get_column_intensity He_img).getD p 0)) offset = none := by
    rw [select_anchors, if_pos h]
  constructor
  · rw [get_wavelength_from_He, He_transform, hsel]
    rfl
  · with_unfolding_all rfl

theorem C5_insufficient_peaks_witness :
    (find_peaks (get_column_intensity [[0, 0, 0]]) 10 20).length < 2 ∧
    (get_wavelength_from_He [[0, 0, 0]] 0 = none ∧ find_peaks [0, 0, 0] 10 20 = []) :=
  ⟨of_decide_eq_true (by with_unfolding_all rfl),
    C5_insufficient_peaks [[0, 0, 0]] 0 (of_decide_eq_true (by with_unfolding_all rfl))⟩

/-! Sortedness of the detected peak list and monotonicity of the fitted
wavelengths. -/

/-- The local maxima scan produces a strictly ascending index list, all
entries at or beyond the scan position. -/
theorem localMaximaGo_bounds (x : List ℚ) (iMax : ℕ) :
    ∀ fuel i, (localMaximaGo x iMax fuel i).Pairwise (· < ·) ∧
      ∀ j ∈ localMaximaGo x iMax fuel i, i ≤ j := by
  intro fuel
  induction fuel with
  | zero => intro i; simp [localMaximaGo]
  | succ fuel ih =>
    intro i
    simp only [localMaximaGo]
    by_cases h1 : i < iMax
    · simp only [if_pos h1]
      by_cases h2 : x.getD (i-1) 0 < x.getD i 0
      · simp only [if_pos h2]
        generalize plateauScan x (x.getD i 0) (iMax - (i+1)) (i+1) = L
        by_cases h3 : x.getD (i + 1 + L) 0 < x.getD i 0
        · simp only [if_pos h3]
          obtain ⟨hp, hb⟩ := ih (i + 1 + L + 1)
          constructor
          · exact List.Pairwise.cons (fun j hj => by have := hb j hj; omega) hp
          · intro j hj
            rcases List.mem_cons.mp hj with rfl | hj'
            · omega
            · have := hb j hj'; omega
        · simp only [if_neg h3]
          obtain ⟨hp, hb⟩ := ih (i+1)
          exact ⟨hp, fun j hj => by have := hb j hj; omega⟩
      · simp only [if_neg h2]
        obtain ⟨hp, hb⟩ := ih (i+1)
        exact ⟨hp, fun j hj => by have := hb j hj; omega⟩
    · simp only [if_neg h1]
      simp

/-- The numpy boolean-mask filter keeps a sublist. -/
theorem maskFilter_sublist (peaks : List ℕ) (keep : ℕ → Bool) :
    (maskFilter peaks keep).Sublist peaks := by
  rw [maskFilter]
  have h1 : ((peaks.zip ((List.range peaks.length).map keep)).filter
      (fun p => p.2)).Sublist (peaks.zip ((List.range peaks.length).map keep)) :=
    List.filter_sublist _
  have h2 := h1.map Prod.fst
  rw [List.map_fst_zip] at h2
  · exact h2
  · simp

/-- The detected peak list of find_peaks is strictly ascending. -/
theorem find_peaks_sorted (x : List ℚ) (prom : ℚ) (dist : ℤ) :
    (find_peaks x prom dist).Pairwise (· < ·) := by
  rw [find_peaks]
  have h1 : (local_maxima_1d x).Pairwise (· < ·) :=
    (localMaximaGo_bounds x (x.length - 1) x.length 1).1
  exact (List.Pairwise.sublist (maskFilter_sublist (local_maxima_1d x) _) h1).filter _

/-- With at least two strictly ascending peaks, the anchor selection
succeeds and yields strictly increasing pixel anchors bound to strictly
increasing wavelengths. -/
theorem select_anchors_spec (peaks : List ℕ) (vals : List ℚ) (offset : ℤ)
    (h2 : 2 ≤ peaks.length) (hlen : vals.length = peaks.length)
    (hsort : peaks.Pairwise (· < ·)) :
    ∃ x0 x1 : ℤ, ∃ y0 y1 : ℚ,
      select_anchors peaks vals offset = some ((x0, x1), (y0, y1)) ∧
      x0 < x1 ∧ y0 < y1 := by
  have hnl : ¬ peaks.length < 2 := by omega
  rcases Nat.eq_zero_or_pos (argmax vals) with h0 | hpos
  · refine ⟨(peaks.getD 0 0 : ℤ) + offset, (peaks.getD 1 0 : ℤ) + offset,
      58887/100, 66907/100, ?_, ?_, by norm_num⟩
    · rw [select_anchors, if_neg hnl]
      simp [h0]
    · have := pairwise_getD_lt peaks hsort 0 1 Nat.zero_lt_one (by omega)
      omega
  · have hkl : argmax vals < peaks.length := by
      have hne : vals ≠ [] := by
        intro hv
        rw [hv] at hlen
        simp at hlen
        omega
      have := argmax_lt vals hne
      omega
    refine ⟨(peaks.getD (argmax vals - 1) 0 : ℤ) + offset,
      (peaks.getD (argmax vals) 0 : ℤ) + offset, 2513/5, 58887/100, ?_, ?_, by norm_num⟩
    · rw [select_anchors, if_neg hnl]
      simp [Nat.pos_iff_ne_zero.mp hpos]
    · have := pairwise_getD_lt peaks hsort (argmax vals - 1) (argmax vals) (by omega) hkl
      omega

/-- With at least two detected peaks, the calibration assembles an
affine transform with strictly positive slope. -/
theorem He_transform_slope (intensity : List ℚ) (offset : ℤ)
    (h2 : 2 ≤ (find_peaks intensity 10 20).length) :
    ∃ m b : ℚ, 0 < m ∧ He_transform intensity offset = some (fun x => m * x + b) := by
  obtain ⟨x0, x1, y0, y1, hsel, hx, hy⟩ :=
    select_anchors_spec (find_peaks intensity 10 20)
      ((find_peaks intensity 10 20).map (fun p => intensity.getD p 0)) offset h2
      (by simp) (find_peaks_sorted intensity 10 20)
  have hxq : (x0:ℚ) < (x1:ℚ) := by exact_mod_cast hx
  have hsub : (0:ℚ) < (x1:ℚ) - (x0:ℚ) := sub_pos.mpr hxq
  refine ⟨lin_m (x0:ℚ) (x1:ℚ) y0 y1, lin_b (x0:ℚ) (x1:ℚ) y0 y1, ?_, ?_⟩
  · rw [lin_m]
    exact div_pos (by linarith) hsub
  · rw [He_transform, hsel]
    show get_linear_transformation (x0:ℚ) (x1:ℚ) y0 y1 = _
    rw [get_linear_transformation, if_neg (ne_of_gt hsub)]

/-- C10: whenever the calibration image yields at least two detected
peaks, the returned wavelength array exists, has one entry per pixel
column of the calibration profile, and is strictly increasing in the
pixel index (the anchors are distinct ascending peaks and both
hardcoded wavelength pairs ascend, so the slope is positive). -/
theorem C10_wavelengths_increasing (He_img : List (List ℚ)) (offset : ℤ)
    (h2 : 2 ≤ (find_peaks (get_column_intensity He_img) 10 20).length) :
    ∃ ws, get_wavelength_from_He He_img offset = some ws ∧
      ws.length = (get_column_intensity He_img).length ∧
      ws.Pairwise (· < ·) := by
  obtain ⟨m, b, hm, hf⟩ := He_transform_slope (get_column_intensity He_img) offset h2
  refine ⟨(List.range (get_column_intensity He_img).length).map
      (fun i : ℕ => m * (i:ℚ) + b), ?_, by simp, ?_⟩
  · rw [get_wavelength_from_He, hf]
    rfl
  · refine List.Pairwise.map _ ?_ (List.pairwise_lt_range _)
    intro a b' hab
    have hq : (a:ℚ) < (b':ℚ) := by exact_mod_cast hab
    have := mul_lt_mul_of_pos_left hq hm
    linarith

theorem C10_wavelengths_increasing_witness :
    2 ≤ (find_peaks (get_column_intensity heImg23) 10 20).length ∧
    (∃ ws, get_wavelength_from_He heImg23 0 = some ws ∧
      ws.length = (get_column_intensity heImg23).length ∧ ws.Pairwise (· < ·)) :=
  ⟨of_decide_eq_true (by with_unfolding_all rfl),
    C10_wavelengths_increasing heImg23 0 (of_decide_eq_true (by with_unfolding_all rfl))⟩

/-! Claims about the assembled spectrum. -/

/-- A successful get_spectrum call returns the He wavelengths paired
with the target profile. -/
theorem get_spectrum_ok (target He_img : List (List ℚ)) (plot : PlotArg) (offset : ℤ)
    (pr : List ℚ × List ℚ)
    (h : get_spectrum target He_img plot offset = Except.ok pr) :
    get_wavelength_from_He He_img offset = some pr.1 ∧
    pr.2 = get_column_intensity target := by
  rw [get_spectrum] at h
  rcases hgw : get_wavelength_from_He He_img offset with _ | wl <;> rw [hgw] at h
  · exact Except.noConfusion h
  · split_ifs at h
    all_goals first
      | exact Except.noConfusion h
      | (have hpair := Except.ok.inj h; rw [← hpair]; exact ⟨rfl, rfl⟩)

/-- A successful wavelength computation is the transform mapped over the
pixel indices of the calibration profile. -/
theorem get_wavelength_some (He_img : List (List ℚ)) (offset : ℤ) (wl : List ℚ)
    (h : get_wavelength_from_He He_img offset = some wl) :
    ∃ f, He_transform (get_column_intensity He_img) offset = some f ∧
      wl = (List.range (get_column_intensity He_img).length).map (fun i : ℕ => f (i:ℚ)) := by
  rw [get_wavelength_from_He] at h
  rcases hft : He_transform (get_column_intensity He_img) offset with _ | f <;> rw [hft] at h
  · exact absurd h (by simp)
  · refine ⟨f, rfl, ?_⟩
    have := Option.some.inj h
    exact this.symm

/-- C1 (amended): for every accepted input pair, the intensity array is
the target profile and the wavelength array has one entry per pixel
column of the CALIBRATION image's profile, entry i being the transform
applied to pixel index i; the two arrays have equal length only when the
two images have equal width. -/
theorem C1_spectrum_indexing (target He_img : List (List ℚ)) (plot : PlotArg)
    (offset : ℤ) (ws ints : List ℚ)
    (h : get_spectrum target He_img plot offset = Except.ok (ws, ints)) :
    ints = get_column_intensity target ∧
    ws.length = (get_column_intensity He_img).length ∧
    ∃ f, He_transform (get_column_intensity He_img) offset = some f ∧
      ∀ i, i < ws.length → ws.getD i 0 = f (i : ℚ) := by
  obtain ⟨hwl, hint⟩ := get_spectrum_ok target He_img plot offset (ws, ints) h
  obtain ⟨f, hf, hws⟩ := get_wavelength_some He_img offset ws hwl
  subst hws
  refine ⟨hint, by simp, f, hf, ?_⟩
  intro i hi
  rw [getD_range_map]
  simpa using hi

theorem C1_spectrum_indexing_witness :
    get_spectrum [[(1:ℚ), 2]] heImg23 (PlotArg.bool false) 0 = Except.ok (wsHe, [1, 2]) ∧
    (([1, 2] : List ℚ) = get_column_intensity [[(1:ℚ), 2]] ∧
      wsHe.length = (get_column_intensity heImg23).length ∧
      ∃ f, He_transform (get_column_intensity heImg23) 0 = some f ∧
        ∀ i, i < wsHe.length → wsHe.getD i 0 = f (i : ℚ)) :=
  ⟨by with_unfolding_all rfl,
    C1_spectrum_indexing [[1, 2]] heImg23 (PlotArg.bool false) 0 wsHe [1, 2]
      (by with_unfolding_all rfl)⟩

/-- C1 counterexample: a 2-pixel-wide target with the 23-pixel-wide
calibration image is accepted, and the returned pair has a wavelength
array of length 23 (the calibration width) against an intensity array of
length 2 (the target width), so the spectrum is not an equal-length pair
indexed by the target's pixel columns. -/
theorem C1_width_counterexample :
    ∃ pr : List ℚ × List ℚ,
      get_spectrum [[(1:ℚ), 2]] heImg23 (PlotArg.bool false) 0 = Except.ok pr ∧
      pr.1.length = 23 ∧ pr.2.length = 2 ∧ pr.1.length ≠ pr.2.length := by
  refine ⟨(wsHe, [1, 2]), by with_unfolding_all rfl, ?_, by norm_num, ?_⟩
  · rw [wsHe]
    simp
  · rw [wsHe]
    simp

/-- C6 counterexample: with a calibration image yielding no peaks and an
unrecognized plot flag, get_spectrum fails with the insufficient-peaks
error, not the invalid-argument error, so the invalid-argument error is
not raised for every flag outside the recognized set. -/
theorem C6_upstream_counterexample :
    plotRecognized (PlotArg.str "bogus") = false ∧
    get_spectrum [[(0:ℚ)]] [[(0:ℚ)]] (PlotArg.str "bogus") 0 =
      Except.error SpecError.insufficient_peaks ∧
    get_spectrum [[(0:ℚ)]] [[(0:ℚ)]] (PlotArg.str "bogus") 0 ≠
      Except.error SpecError.invalid_plot := by
  refine ⟨rfl, by with_unfolding_all rfl, ?_⟩
  intro hcontra
  rw [show get_spectrum [[(0:ℚ)]] [[(0:ℚ)]] (PlotArg.str "bogus") 0 =
      Except.error SpecError.insufficient_peaks from by with_unfolding_all rfl] at hcontra
  exact SpecError.noConfusion (Except.error.inj hcontra)

/-- C6 (amended): when the calibration step succeeds, get_spectrum
raises the invalid-argument error exactly for plot flags outside the
recognized set containing False, True, above and over; flags inside the
set never raise it. -/
theorem C6_invalid_plot_iff (target He_img : List (List ℚ)) (plot : PlotArg) (offset : ℤ)
    (h : get_wavelength_from_He He_img offset ≠ none) :
    (get_spectrum target He_img plot offset = Except.error SpecError.invalid_plot ↔
      plotRecognized plot = false) := by
  obtain ⟨wl, hwl⟩ := Option.ne_none_iff_exists'.mp h
  rw [get_spectrum, hwl]
  rcases plot with b | s
  · rcases b with _ | _ <;> simp [plotRecognized]
  · by_cases ha : s = "above"
    · subst ha
      simp [plotRecognized]
    · by_cases ho : s = "over"
      · subst ho
        simp [plotRecognized]
      · simp [plotRecognized, ha, ho]

theorem C6_invalid_plot_iff_witness :
    get_wavelength_from_He heImg23 0 ≠ none ∧
    (get_spectrum [[(1:ℚ)]] heImg23 (PlotArg.str "bogus") 0 =
        Except.error SpecError.invalid_plot ↔
      plotRecognized (PlotArg.str "bogus") = false) := by
  have hne : get_wavelength_from_He heImg23 0 ≠ none := by
    rw [show get_wavelength_from_He heImg23 0 = some wsHe from by with_unfolding_all rfl]
    simp
  exact ⟨hne, C6_invalid_plot_iff [[(1:ℚ)]] heImg23 (PlotArg.str "bogus") 0 hne⟩

/-! Symbolic evaluation of the pipeline on the synthetic 302-pixel
calibration image (claim C3).  The profile is flat except at the two
peaks, so the loops are evaluated with run-skipping lemmas. -/

/-- Profile entries by index. -/
theorem sp_getD (j : ℕ) (hj : j < 302) : synthProfile.getD j 0 = synthFn j := by
  rw [synthProfile]
  exact getD_range_map synthFn 302 j hj

/-- Profile entries away from the peaks are zero. -/
theorem sp_getD_zero (j : ℕ) (hj : j < 302) (h1 : j ≠ 100) (h2 : j ≠ 300) :
    synthProfile.getD j 0 = 0 := by
  rw [sp_getD j hj, synthFn]
  simp [h1, h2]

/-- Profile entry at the first peak. -/
theorem sp_getD_100 : synthProfile.getD 100 0 = 50 :=
  (sp_getD 100 (by norm_num)).trans rfl

/-- Profile entry at the second peak. -/
theorem sp_getD_300 : synthProfile.getD 300 0 = 80 :=
  (sp_getD 300 (by norm_num)).trans rfl

/-- The scan returns the empty list once the index bound is reached. -/
theorem lmg_stop (x : List ℚ) (iMax fuel i : ℕ) (h : iMax ≤ i) :
    localMaximaGo x iMax fuel i = [] := by
  cases fuel with
  | zero => rfl
  | succ fuel =>
    simp only [localMaximaGo]
    rw [if_neg (Nat.not_lt.mpr h)]

/-- Run-skipping for the local maxima scan: over a stretch with no
strict rise the scan just advances, consuming one fuel per step. -/
theorem lmg_skip (x : List ℚ) (iMax : ℕ) :
    ∀ n fuel i, (∀ d, d < n → ¬ x.getD (i + d - 1) 0 < x.getD (i + d) 0) →
      localMaximaGo x iMax (n + fuel) i = localMaximaGo x iMax fuel (i + n) := by
  intro n
  induction n with
  | zero => intro fuel i _; simp
  | succ n ih =>
    intro fuel i hflat
    by_cases hlt : i < iMax
    · have hstep : localMaximaGo x iMax (n + 1 + fuel) i =
          localMaximaGo x iMax (n + fuel) (i + 1) := by
        have he : n + 1 + fuel = (n + fuel) + 1 := by omega
        rw [he]
        simp only [localMaximaGo]
        rw [if_pos hlt, if_neg (by simpa using hflat 0 (by omega))]
      have hshift : ∀ d, d < n → ¬ x.getD (i + 1 + d - 1) 0 < x.getD (i + 1 + d) 0 := by
        intro d hd
        have := hflat (d+1) (by omega)
        rw [show i + (d + 1) = i + 1 + d from by omega] at this
        exact this
      rw [hstep, ih fuel (i+1) hshift, show i + 1 + n = i + (n + 1) from by omega]
    · rw [lmg_stop x iMax _ i (by omega), lmg_stop x iMax fuel (i + (n + 1)) (by omega)]

/-- Run-skipping for the left prominence walk over a zero stretch with a
nonpositive accumulator. -/
theorem promLeft_skip (x : List ℚ) (v : ℚ) :
    ∀ n i a, a ≤ 0 →
      (∀ d, d < n → x.getD (i + d + 1) 0 ≤ v ∧ x.getD (i + d) 0 = 0) →
      promLeftMin x v (i + n) a = promLeftMin x v i a := by
  intro n
  induction n with
  | zero => intro i a _ _; rfl
  | succ n ih =>
    intro i a ha hzero
    have he : i + (n + 1) = (i + n) + 1 := by omega
    rw [he]
    simp only [promLeftMin]
    rw [if_pos (by simpa [show i + n + 1 = i + n + 1 from rfl] using (hzero n (by omega)).1),
      (hzero n (by omega)).2, min_eq_left ha]
    exact ih i a ha (fun d hd => hzero d (by omega))

/-- Run-skipping for the right prominence walk over a zero stretch with
a nonpositive accumulator. -/
theorem promRight_skip (x : List ℚ) (v : ℚ) :
    ∀ n fuel i a, a ≤ 0 →
      (∀ d, d < n → x.getD (i + d) 0 ≤ v ∧ x.getD (i + d + 1) 0 = 0) →
      promRightMin x v (n + fuel) i a = promRightMin x v fuel (i + n) a := by
  intro n
  induction n with
  | zero => intro fuel i a _ _; simp
  | succ n ih =>
    intro fuel i a ha hzero
    have he : n + 1 + fuel = (n + fuel) + 1 := by omega
    rw [he]
    simp only [promRightMin]
    rw [if_pos (by simpa using (hzero 0 (by omega)).1),
      show x.getD (i + 1) 0 = 0 from by simpa using (hzero 0 (by omega)).2,
      min_eq_left ha]
    have hshift : ∀ d, d < n → x.getD (i + 1 + d) 0 ≤ v ∧ x.getD (i + 1 + d + 1) 0 = 0 := by
      intro d hd
      have := hzero (d+1) (by omega)
      rw [show i + (d + 1) = i + 1 + d from by omega] at this
      exact this
    rw [ih fuel (i+1) a ha hshift, show i + 1 + n = i + (n + 1) from by omega]

/-- Rebuilding a list from its own entries by position. -/
theorem range_map_getD (l : List ℚ) :
    (List.range l.length).map (fun j => l.getD j 0) = l := by
  apply List.ext_get
  · simp
  · intro n h1 h2
    have hn : n < l.length := h2
    simp [List.getD_eq_get?, List.get?_eq_get hn, List.getElem?_eq_getElem hn]

/-- The column profile of a one-row image is the row itself. -/
theorem colInt_single (row : List ℚ) : get_column_intensity [row] = row := by
  rw [get_column_intensity]
  simp only [List.headD_cons, List.map_cons, List.map_nil, List.sum_cons, List.sum_nil,
    add_zero, List.length_cons, List.length_nil]
  norm_num
  simpa using range_map_getD row

/-- One scan step at an isolated strict peak with plateau length L. -/
theorem lmg_peak_step (x : List ℚ) (iMax fuel i L : ℕ)
    (hlt : i < iMax)
    (hrise : x.getD (i-1) 0 < x.getD i 0)
    (hL : plateauScan x (x.getD i 0) (iMax - (i+1)) (i+1) = L)
    (hfall : x.getD (i + 1 + L) 0 < x.getD i 0) :
    localMaximaGo x iMax (Nat.succ fuel) i =
      (i + (i + 1 + L - 1)) / 2 :: localMaximaGo x iMax fuel (i + 1 + L + 1) := by
  rw [localMaximaGo.eq_2, if_pos hlt, if_pos hrise]
  show (if x.getD (i + 1 + plateauScan x (x.getD i 0) (iMax - (i+1)) (i+1)) 0 < x.getD i 0 then
      (i + (i + 1 + plateauScan x (x.getD i 0) (iMax - (i+1)) (i+1) - 1)) / 2 ::
        localMaximaGo x iMax fuel (i + 1 + plateauScan x (x.getD i 0) (iMax - (i+1)) (i+1) + 1)
    else localMaximaGo x iMax fuel (i + 1)) = _
  rw [hL, if_pos hfall]

/-- Local maxima of the synthetic profile: pixels 100 and 300. -/
theorem lm_synth : local_maxima_1d synthProfile = [100, 300] := by
  have hlen : synthProfile.length = 302 := by simp [synthProfile]
  rw [local_maxima_1d, hlen]
  have hflat1 : ∀ d, d < 99 →
      ¬ synthProfile.getD (1 + d - 1) 0 < synthProfile.getD (1 + d) 0 := by
    intro d hd
    rw [sp_getD_zero (1 + d - 1) (by omega) (by omega) (by omega),
      sp_getD_zero (1 + d) (by omega) (by omega) (by omega)]
    exact lt_irrefl 0
  have s1 : localMaximaGo synthProfile 301 302 1 = localMaximaGo synthProfile 301 203 100 := by
    rw [show (302:ℕ) = 99 + 203 from rfl, lmg_skip synthProfile 301 99 203 1 hflat1]
  have hL1 : plateauScan synthProfile (synthProfile.getD 100 0) (301 - (100+1)) (100+1) = 0 := by
    rw [sp_getD_100, show (301:ℕ) - (100+1) = 200 from rfl, show (100:ℕ)+1 = 101 from rfl]
    rw [show (200:ℕ) = Nat.succ 199 from rfl, plateauScan.eq_2]
    rw [sp_getD_zero 101 (by norm_num) (by norm_num) (by norm_num)]
    rw [if_neg (by norm_num : ¬ (0:ℚ) = 50)]
  have s2 : localMaximaGo synthProfile 301 203 100 =
      100 :: localMaximaGo synthProfile 301 202 102 := by
    rw [show (203:ℕ) = Nat.succ 202 from rfl]
    rw [lmg_peak_step synthProfile 301 202 100 0 (by norm_num)
      (by rw [show (100:ℕ) - 1 = 99 from rfl,
          sp_getD_zero 99 (by norm_num) (by norm_num) (by norm_num), sp_getD_100]
          norm_num)
      hL1
      (by rw [show (100:ℕ) + 1 + 0 = 101 from rfl,
          sp_getD_zero 101 (by norm_num) (by norm_num) (by norm_num), sp_getD_100]
          norm_num)]
  have hflat2 : ∀ d, d < 198 →
      ¬ synthProfile.getD (102 + d - 1) 0 < synthProfile.getD (102 + d) 0 := by
    intro d hd
    rw [sp_getD_zero (102 + d - 1) (by omega) (by omega) (by omega),
      sp_getD_zero (102 + d) (by omega) (by omega) (by omega)]
    exact lt_irrefl 0
  have s3 : localMaximaGo synthProfile 301 202 102 = localMaximaGo synthProfile 301 4 300 := by
    rw [show (202:ℕ) = 198 + 4 from rfl, lmg_skip synthProfile 301 198 4 102 hflat2]
  have hL2 : plateauScan synthProfile (synthProfile.getD 300 0) (301 - (300+1)) (300+1) = 0 := by
    rw [show (301:ℕ) - (300+1) = 0 from rfl]
    rfl
  have s4 : localMaximaGo synthProfile 301 4 300 =
      300 :: localMaximaGo synthProfile 301 3 302 := by
    rw [show (4:ℕ) = Nat.succ 3 from rfl]
    rw [lmg_peak_step synthProfile 301 3 300 0 (by norm_num)
      (by rw [show (300:ℕ) - 1 = 299 from rfl,
          sp_getD_zero 299 (by norm_num) (by norm_num) (by norm_num), sp_getD_300]
          norm_num)
      hL2
      (by rw [show (300:ℕ) + 1 + 0 = 301 from rfl,
          sp_getD_zero 301 (by norm_num) (by norm_num) (by norm_num), sp_getD_300]
          norm_num)]
  have s5 : localMaximaGo synthProfile 301 3 302 = [] := lmg_stop _ _ _ _ (by norm_num)
  rw [s1, s2, s3, s4, s5]

/-- Prominence of the peak at pixel 100 of the synthetic profile. -/
theorem prom100 : peak_prominence synthProfile 100 = 50 := by
  rw [peak_prominence, sp_getD_100]
  have hlen : synthProfile.length - 1 - 100 = 201 := by simp [synthProfile]
  rw [hlen]
  have hleft : promLeftMin synthProfile 50 100 50 = 0 := by
    rw [show (100:ℕ) = Nat.succ 99 from rfl, promLeftMin.eq_2]
    rw [show (99:ℕ) + 1 = 100 from rfl, sp_getD_100]
    rw [if_pos (by norm_num : (50:ℚ) ≤ 50)]
    rw [sp_getD_zero 99 (by norm_num) (by norm_num) (by norm_num)]
    rw [show min (50:ℚ) 0 = 0 from by norm_num [min_def]]
    have hz : ∀ d, d < 99 →
        synthProfile.getD (0 + d + 1) 0 ≤ 50 ∧ synthProfile.getD (0 + d) 0 = 0 := by
      intro d hd
      constructor
      · rw [sp_getD_zero (0 + d + 1) (by omega) (by omega) (by omega)]
        norm_num
      · rw [sp_getD_zero (0 + d) (by omega) (by omega) (by omega)]
    rw [show (99:ℕ) = 0 + 99 from rfl, promLeft_skip synthProfile 50 99 0 0 le_rfl hz]
    rfl
  have hright : promRightMin synthProfile 50 201 100 50 = 0 := by
    rw [show (201:ℕ) = Nat.succ 200 from rfl, promRightMin.eq_2]
    rw [sp_getD_100, if_pos (by norm_num : (50:ℚ) ≤ 50)]
    rw [show (100:ℕ) + 1 = 101 from rfl,
      sp_getD_zero 101 (by norm_num) (by norm_num) (by norm_num)]
    rw [show min (50:ℚ) 0 = 0 from by norm_num [min_def]]
    have hz : ∀ d, d < 198 →
        synthProfile.getD (101 + d) 0 ≤ 50 ∧ synthProfile.getD (101 + d + 1) 0 = 0 := by
      intro d hd
      constructor
      · rw [sp_getD_zero (101 + d) (by omega) (by omega) (by omega)]
        norm_num
      · rw [sp_getD_zero (101 + d + 1) (by omega) (by omega) (by omega)]
    rw [show (200:ℕ) = 198 + 2 from rfl, promRight_skip synthProfile 50 198 2 101 0 le_rfl hz]
    rw [show (101:ℕ) + 198 = 299 from rfl]
    rw [show (2:ℕ) = Nat.succ 1 from rfl, promRightMin.eq_2]
    rw [sp_getD_zero 299 (by norm_num) (by norm_num) (by norm_num)]
    rw [if_pos (by norm_num : (0:ℚ) ≤ 50)]
    rw [show (299:ℕ) + 1 = 300 from rfl, sp_getD_300]
    rw [show min (0:ℚ) 80 = 0 from by norm_num [min_def]]
    rw [show (1:ℕ) = Nat.succ 0 from rfl, promRightMin.eq_2]
    rw [sp_getD_300, if_neg (by norm_num : ¬ (80:ℚ) ≤ 50)]
  rw [hleft, hright]
  norm_num

/-- Prominence of the peak at pixel 300 of the synthetic profile. -/
theorem prom300 : peak_prominence synthProfile 300 = 80 := by
  rw [peak_prominence, sp_getD_300]
  have hlen : synthProfile.length - 1 - 300 = 1 := by simp [synthProfile]
  rw [hlen]
  have hleft : promLeftMin synthProfile 80 300 80 = 0 := by
    rw [show (300:ℕ) = Nat.succ 299 from rfl, promLeftMin.eq_2]
    rw [show (299:ℕ) + 1 = 300 from rfl, sp_getD_300]
    rw [if_pos (by norm_num : (80:ℚ) ≤ 80)]
    rw [sp_getD_zero 299 (by norm_num) (by norm_num) (by norm_num)]
    rw [show min (80:ℚ) 0 = 0 from by norm_num [min_def]]
    have hz1 : ∀ d, d < 198 →
        synthProfile.getD (101 + d + 1) 0 ≤ 80 ∧ synthProfile.getD (101 + d) 0 = 0 := by
      intro d hd
      constructor
      · rw [sp_getD_zero (101 + d + 1) (by omega) (by omega) (by omega)]
        norm_num
      · rw [sp_getD_zero (101 + d) (by omega) (by omega) (by omega)]
    rw [show (299:ℕ) = 101 + 198 from rfl, promLeft_skip synthProfile 80 198 101 0 le_rfl hz1]
    rw [show (101:ℕ) = Nat.succ 100 from rfl, promLeftMin.eq_2]
    rw [show (100:ℕ) + 1 = 101 from rfl,
      sp_getD_zero 101 (by norm_num) (by norm_num) (by norm_num)]
    rw [if_pos (by norm_num : (0:ℚ) ≤ 80)]
    rw [sp_getD_100]
    rw [show min (0:ℚ) 50 = 0 from by norm_num [min_def]]
    rw [show (100:ℕ) = Nat.succ 99 from rfl, promLeftMin.eq_2]
    rw [show (99:ℕ) + 1 = 100 from rfl, sp_getD_100]
    rw [if_pos (by norm_num : (50:ℚ) ≤ 80)]
    rw [sp_getD_zero 99 (by norm_num) (by norm_num) (by norm_num)]
    rw [show min (0:ℚ) 0 = 0 from by norm_num [min_def]]
    have hz2 : ∀ d, d < 99 →
        synthProfile.getD (0 + d + 1) 0 ≤ 80 ∧ synthProfile.getD (0 + d) 0 = 0 := by
      intro d hd
      constructor
      · rw [sp_getD_zero (0 + d + 1) (by omega) (by omega) (by omega)]
        norm_num
      · rw [sp_getD_zero (0 + d) (by omega) (by omega) (by omega)]
    rw [show (99:ℕ) = 0 + 99 from rfl, promLeft_skip synthProfile 80 99 0 0 le_rfl hz2]
    rfl
  have hright : promRightMin synthProfile 80 1 300 80 = 0 := by
    rw [show (1:ℕ) = Nat.succ 0 from rfl, promRightMin.eq_2]
    rw [sp_getD_300, if_pos (by norm_num : (80:ℚ) ≤ 80)]
    rw [show (300:ℕ) + 1 = 301 from rfl,
      sp_getD_zero 301 (by norm_num) (by norm_num) (by norm_num)]
    rw [show min (80:ℚ) 0 = 0 from by norm_num [min_def]]
    rfl
  rw [hleft, hright]
  norm_num

/-- Detected peaks of the synthetic profile. -/
theorem fp_synth : find_peaks synthProfile 10 20 = [100, 300] := by
  rw [find_peaks, lm_synth]
  have hmap : ([100, 300] : List ℕ).map (fun p => synthProfile.getD p 0) = [50, 80] := by
    rw [List.map_cons, List.map_cons, List.map_nil, sp_getD_100, sp_getD_300]
  rw [hmap]
  have hmask : maskFilter [100, 300] (select_by_peak_distance [100, 300] [50, 80] 20) =
      [100, 300] := by with_unfolding_all rfl
  rw [hmask]
  have h100 : (10:ℚ) ≤ peak_prominence synthProfile 100 := by
    rw [prom100]
    norm_num
  have h300 : (10:ℚ) ≤ peak_prominence synthProfile 300 := by
    rw [prom300]
    norm_num
  simp [List.filter_cons, h100, h300]

/-- Anchor selection on the synthetic peaks: the most intense peak is
the second one, so the first branch does not apply. -/
theorem sel_synth : select_anchors [100, 300] [50, 80] 0 =
    some (((100:ℤ), (300:ℤ)), (2513/5, 58887/100)) := by
  with_unfolding_all rfl

/-- End-to-end value of the synthetic calibration transform at the two
peak pixels. -/
theorem he_synth_pair :
    (He_transform (get_column_intensity syntheticHeImage) 0).map (fun f => (f 100, f 300)) =
      some (2513/5, 58887/100) := by
  have hcol : get_column_intensity syntheticHeImage = synthProfile := by
    rw [syntheticHeImage]
    exact colInt_single synthProfile
  rw [hcol, He_transform, fp_synth]
  have hmap : ([100, 300] : List ℕ).map (fun p => synthProfile.getD p 0) = [50, 80] := by
    rw [List.map_cons, List.map_cons, List.map_nil, sp_getD_100, sp_getD_300]
  rw [hmap, sel_synth]
  show (get_linear_transformation ((100:ℤ):ℚ) ((300:ℤ):ℚ) (2513/5) (58887/100)).map
    (fun f => (f 100, f 300)) = some (2513/5, 58887/100)
  rw [get_linear_transformation, if_neg (by norm_num : ¬ (((300:ℤ):ℚ) - ((100:ℤ):ℚ) = 0))]
  simp only [Option.map_some']
  norm_num [lin_m, lin_b]

/-- C3 counterexample: on the synthetic two-peak image the assembled
transform maps pixel 100 to 502.60 and pixel 300 to 588.87 (the most
intense peak is at list index 1, so the second branch binds the pair to
502.60 and 588.87), not to 588.87 and 669.07 as claimed. -/
theorem C3_synthetic_counterexample :
    (He_transform (get_column_intensity syntheticHeImage) 0).map (fun f => (f 100, f 300)) =
      some (2513/5, 58887/100) ∧
    (He_transform (get_column_intensity syntheticHeImage) 0).map (fun f => (f 100, f 300)) ≠
      some (58887/100, 66907/100) := by
  refine ⟨he_synth_pair, ?_⟩
  rw [he_synth_pair]
  intro hcontra
  simp only [Option.some.injEq, Prod.mk.injEq] at hcontra
  exact absurd hcontra.1 (by norm_num)

/-- C3 (amended): for the synthetic single-row image with isolated peaks
at pixel 100 (value 50) and pixel 300 (value 80) and offset 0, the
assembled calibration transform satisfies transform(100) = 502.60 and
transform(300) = 588.87. -/
theorem C3_synthetic_transform :
    (He_transform (get_column_intensity syntheticHeImage) 0).map (fun f => (f 100, f 300)) =
      some (2513/5, 58887/100) :=
  he_synth_pair
